import Mathlib

/-!
# Verification of the obsidian-note-topic-finder core

Shallow embedding of the core components of the repository:

* the `Job` entity (`src/core/domain/entities/job.ts`),
* the `JobQueue` scheduler (`src/core/application/services/job-queue.ts`),
* the `EventEmitter` pub/sub bus (`src/core/application/services/event-emitter.ts`),
* the `AIService` orchestration facade (`src/core/application/services/ai-service.ts`),
* the model rate table (`src/core/domain/constants/model-configs.ts`).

TypeScript `number` is modelled as `ℚ` (all values appearing in the code are
exact decimals), `Date` as a `Nat` clock reading supplied by the state,
the random string ids as a `Nat` counter, and the `unknown` job payload and
result types as `Nat` (they are opaque to all of the code modelled here).

The interaction of the queue with its `EventEmitter` is modelled as an output
trace: the state records, in order, every `emit` call the queue performs.
Delivery of those events to handlers is the behaviour of the `EventEmitter`,
modelled separately.
-/

namespace NTF

/-! ## Job entity (`job.ts`) -/

/-- The `JobStatus` union from `job.ts`. -/
inductive JobStatus where
  | pending
  | running
  | completed
  | failed
  | cancelled
  deriving DecidableEq, Repr

/-- The `JobType` union from `job.ts`. -/
inductive JobType where
  | analyzeContent
  | embedNote
  | generateNote
  | batchProcess
  deriving DecidableEq, Repr

/-- String form of a `JobType`, as interpolated into error messages. -/
def jobTypeName : JobType → String
  | .analyzeContent => "analyze-content"
  | .embedNote => "embed-note"
  | .generateNote => "generate-note"
  | .batchProcess => "batch-process"

/-- The `Job` interface from `job.ts`.  `data` and `result` have type
`unknown` in the source and are modelled as `Nat`; the `Date` fields are
`Nat` clock readings; the string id is modelled as a `Nat` drawn from a
counter. -/
structure Job where
  id : Nat
  type : JobType
  status : JobStatus
  progress : ℚ
  data : Nat
  result : Option Nat
  error : Option String
  createdAt : Nat
  startedAt : Option Nat
  completedAt : Option Nat
  priority : ℚ
  retryCount : Nat
  maxRetries : Nat
  deriving DecidableEq, Repr

/-- The `CreateJobOptions` interface from `job.ts`. -/
structure CreateJobOptions where
  priority : Option ℚ
  maxRetries : Option Nat
  deriving DecidableEq, Repr

/-- Function `createJob` from `job.ts`: fresh job with pending status,
`progress=0`, `priority = options.priority ?? 5`, `retryCount=0`,
`maxRetries = options.maxRetries ?? 3`. -/
def createJob (type : JobType) (data : Nat) (options : CreateJobOptions)
    (id : Nat) (now : Nat) : Job :=
  { id := id
    type := type
    status := .pending
    progress := 0
    data := data
    result := none
    error := none
    createdAt := now
    startedAt := none
    completedAt := none
    priority := options.priority.getD 5
    retryCount := 0
    maxRetries := options.maxRetries.getD 3 }

/-- Function `canRetry` from `job.ts`: `job.retryCount < job.maxRetries`. -/
def canRetry (job : Job) : Bool :=
  job.retryCount < job.maxRetries

/-- Function `isTerminal` from `job.ts`. -/
def isTerminal (job : Job) : Bool :=
  job.status = .completed || job.status = .failed || job.status = .cancelled

/-! ## JobQueue (`job-queue.ts`) -/

/-- One emitted event, with the payload snapshot taken at the moment of the
`emit` call (handlers run synchronously, so this is what they observe). -/
inductive Event where
  | jobCreated (job : Job)
  | jobStarted (job : Job)
  | jobProgress (jobId : Nat) (progress : ℚ) (message : Option String)
  | jobCompleted (job : Job)
  | jobFailed (job : Job)
  | jobCancelled (job : Job)
  | queueEmpty
  | queuePaused
  | queueResumed
  deriving DecidableEq, Repr

instance : DecidableEq (Except String Nat) := fun a b =>
  match a, b with
  | .ok x, .ok y =>
    if h : x = y then isTrue (by rw [h]) else isFalse (fun hc => h (Except.ok.inj hc))
  | .error x, .error y =>
    if h : x = y then isTrue (by rw [h]) else isFalse (fun hc => h (Except.error.inj hc))
  | .ok _, .error _ => isFalse (fun hc => Except.noConfusion hc)
  | .error _, .ok _ => isFalse (fun hc => Except.noConfusion hc)

/-- The observable behaviour of one `executor.execute(job, onProgress)`
call: the finite sequence of `onProgress(progress, message)` reports the
executor makes, followed by either a resolved result (`.ok`) or a thrown
error message (`.error`). -/
structure ExecBehavior where
  reports : List (ℚ × Option String)
  outcome : Except String Nat
  deriving DecidableEq, Repr

/-- A `JobExecutor`: its behaviour may depend on the job record it is
handed (including `retryCount`, which differs across retries). -/
def Executor : Type := Job → ExecBehavior

/-- The currently running executor invocation: the job in the running
slot together with the not-yet-delivered part of its behaviour. -/
structure InFlight where
  job : Job
  reports : List (ℚ × Option String)
  outcome : Except String Nat
  deriving DecidableEq, Repr

/-- State of a `JobQueue`: the pending list `queue`, the single running
slot (`inflight`, whose `job` field is the `running` reference of the source), the paused
flag, the executor registry, the trace of emitted events, the id counter
and the current clock reading. -/
structure QueueState where
  queue : List Job
  inflight : Option InFlight
  paused : Bool
  executors : JobType → Option Executor
  events : List Event
  nextId : Nat
  now : Nat

/-- The `running` reference of the source class. -/
def QueueState.running (s : QueueState) : Option Job :=
  s.inflight.map InFlight.job

/-- A fresh queue with no registered executors. -/
def QueueState.init : QueueState :=
  { queue := []
    inflight := none
    paused := false
    executors := fun _ => none
    events := []
    nextId := 0
    now := 0 }

/-- Method `registerExecutor` from `job-queue.ts`: later registrations for the
same type replace the earlier one. -/
def registerExecutor (s : QueueState) (type : JobType) (ex : Executor) :
    QueueState :=
  { s with executors := fun t => if t = type then some ex else s.executors t }

/-- The insertion step of `enqueue`:
`queue.findIndex((j) => j.priority > job.priority)` then `splice`/`push`. -/
def insertByPriority (q : List Job) (job : Job) : List Job :=
  match q.findIdx? (fun j => job.priority < j.priority) with
  | none => q ++ [job]
  | some i => q.take i ++ job :: q.drop i

/-- The synchronous part of `processNext` from its entry until either the
`await executor.execute(...)` suspension point or its return: pops jobs
off the pending list, failing those with no registered executor (emitting
`job:failed` and recursing), until one can be started (set `running`,
record `startedAt`, emit `job:started`) or the list is exhausted (emit
`queue:empty`).  Returns the remaining pending list, the new running slot
and the extended event trace. -/
def dispatchLoop (execs : JobType → Option Executor) (now : Nat) :
    List Job → List Event → List Job × Option InFlight × List Event
  | [], evs => ([], none, evs ++ [.queueEmpty])
  | job :: rest, evs =>
    match execs job.type with
    | none =>
      let j := { job with
        status := .failed
        error := some ("No executor registered for job type: " ++ jobTypeName job.type) }
      dispatchLoop execs now rest (evs ++ [.jobFailed j])
    | some ex =>
      let j := { job with status := .running, startedAt := some now }
      let beh := ex j
      (rest, some ⟨j, beh.reports, beh.outcome⟩, evs ++ [.jobStarted j])

/-- The `processNext` guard plus `dispatchLoop`: a no-op when paused or a job
is already running, except that an idle empty queue emits `queue:empty`. -/
def dispatch (s : QueueState) : QueueState :=
  if s.paused || s.inflight.isSome then
    if s.queue.isEmpty && s.inflight.isNone then
      { s with events := s.events ++ [.queueEmpty] }
    else s
  else
    let r := dispatchLoop s.executors s.now s.queue s.events
    { s with queue := r.1, inflight := r.2.1, events := r.2.2 }

/-- The tail of `enqueue` after `createJob`: priority insertion, the
`job:created` emit, and the dispatch attempt. -/
def enqueueCreated (s : QueueState) (job : Job) : QueueState :=
  dispatch { s with
    queue := insertByPriority s.queue job
    events := s.events ++ [.jobCreated job] }

/-- Method `enqueue` from `job-queue.ts`: calls createJob with only the priority option
(note: no `maxRetries` option is ever passed), insert by priority, emit
`job:created`, trigger `processNext`.  Returns the new state and the
created job snapshot. -/
def enqueue (s : QueueState) (type : JobType) (data : Nat)
    (priority : Option ℚ) : QueueState × Job :=
  let job := createJob type data ⟨priority, none⟩ s.nextId s.now
  (enqueueCreated { s with nextId := s.nextId + 1 } job, job)

/-- The running executor delivers its next `onProgress(progress, message)`
report: the callback sets `job.progress = progress` and emits
`job:progress { jobId, progress, message }`.  A no-op when no report is
pending. -/
def progressStep (s : QueueState) : QueueState :=
  match s.inflight with
  | some ⟨job, (p, m) :: rest, out⟩ =>
    { s with
      inflight := some ⟨{ job with progress := p }, rest, out⟩
      events := s.events ++ [.jobProgress job.id p m] }
  | _ => s

/-- The catch-block finalisation of `processNext` once the executor promise
settles (all progress reports delivered): on success set
`completed`/`result`/`progress=100`/`completedAt` and emit
`job:completed`; on failure increment `retryCount` and either re-queue the
job at the front as `pending` (when `canRetry`) or mark it `failed` with
the thrown message and emit `job:failed`.  In both cases the running slot
is cleared.  (The trailing `this.processNext()` call is `finishStep`.) -/
def finalizeRun (s : QueueState) : QueueState :=
  match s.inflight with
  | some ⟨job, [], .ok res⟩ =>
    let j := { job with
      status := .completed
      result := some res
      progress := 100
      completedAt := some s.now }
    { s with inflight := none, events := s.events ++ [.jobCompleted j] }
  | some ⟨job, [], .error msg⟩ =>
    let j := { job with retryCount := job.retryCount + 1 }
    if canRetry j then
      { s with
        inflight := none
        queue := { j with status := .pending } :: s.queue }
    else
      let jf := { j with
        status := .failed
        error := some msg
        completedAt := some s.now }
      { s with inflight := none, events := s.events ++ [.jobFailed jf] }
  | _ => s

/-- Resolution of the promise of the running executor followed by the trailing
`this.processNext()`.  Only enabled once the executor has delivered all of
its progress reports (its synchronous body finished). -/
def finishStep (s : QueueState) : QueueState :=
  match s.inflight with
  | some ⟨_, [], _⟩ => dispatch (finalizeRun s)
  | _ => s

/-- Helper for `cancel`: remove the first job with the given id from the
pending list (`findIndex` + `splice(index, 1)`). -/
def cancelGo (jobId : Nat) : List Job → Option (Job × List Job)
  | [] => none
  | j :: rest =>
    if j.id = jobId then some (j, rest)
    else
      match cancelGo jobId rest with
      | none => none
      | some (found, rest') => some (found, j :: rest')

/-- Method `cancel` from `job-queue.ts`: removes the first pending job with the
given id, sets its status to `cancelled`, emits `job:cancelled` and
returns `true`; returns `false` (and changes nothing) when no pending job
has the id.  The running slot is never consulted. -/
def cancel (s : QueueState) (jobId : Nat) : QueueState × Bool :=
  match cancelGo jobId s.queue with
  | none => (s, false)
  | some (j, q) =>
    let j' := { j with status := JobStatus.cancelled }
    ({ s with queue := q, events := s.events ++ [.jobCancelled j'] }, true)

/-- Method `pause` from `job-queue.ts`. -/
def pause (s : QueueState) : QueueState :=
  { s with paused := true, events := s.events ++ [.queuePaused] }

/-- Method `resume` from `job-queue.ts`: clear the flag, emit `queue:resumed`,
attempt a dispatch. -/
def resume (s : QueueState) : QueueState :=
  dispatch { s with paused := false, events := s.events ++ [.queueResumed] }

/-- Method `clear` from `job-queue.ts`: mark every pending job `cancelled`,
emitting `job:cancelled` for each in order, then empty the pending
list. -/
def clear (s : QueueState) : QueueState :=
  { s with
    queue := []
    events := s.events ++
      s.queue.map (fun j => .jobCancelled { j with status := JobStatus.cancelled }) }

/-- Method `getAllJobs` from `job-queue.ts`: the running job (if any) followed by
the pending list. -/
def allJobs (s : QueueState) : List Job :=
  match s.running with
  | some j => j :: s.queue
  | none => s.queue

/-- One interleaving step of the scheduler: a public operation, a progress
report from the in-flight executor, or the settlement of its promise. -/
inductive Action where
  | register (type : JobType) (ex : Executor)
  | enqueue (type : JobType) (data : Nat) (priority : Option ℚ)
  | cancel (jobId : Nat)
  | pause
  | resume
  | clear
  | progress
  | finish

/-- Apply one action to the state. -/
def applyAction (s : QueueState) : Action → QueueState
  | .register t ex => registerExecutor s t ex
  | .enqueue t d p => (enqueue s t d p).1
  | .cancel jobId => (cancel s jobId).1
  | .pause => pause s
  | .resume => resume s
  | .clear => clear s
  | .progress => progressStep s
  | .finish => finishStep s

/-- Run a sequence of actions from a starting state. -/
def applyActions (acts : List Action) (s : QueueState) : QueueState :=
  acts.foldl applyAction s

/-! ## EventEmitter (`event-emitter.ts`)

Handler identity is modelled as `Nat` (JavaScript compares callbacks by
reference), the event payload as an opaque `Nat`, and the behaviour of a
handler on a payload as an `Except String Unit` (a normal return or a
thrown message).  A JavaScript `Set` preserves insertion order and rejects
duplicates, so the listener set for an event is an ordered duplicate-free
list. -/

/-- A subscribed callback, identified by reference. -/
abbrev Handler := Nat

/-- An event payload, opaque to the emitter. -/
abbrev Payload := Nat

/-- The `listeners : Map<string, Set<EventCallback>>` field, as an
association list in key-insertion order with duplicate-free value lists. -/
structure EventEmitter where
  listeners : List (String × List Handler)

/-- A fresh emitter. -/
def EventEmitter.empty : EventEmitter := ⟨[]⟩

/-- Lookup in the listeners map (`this.listeners.get(event)`); a missing
entry behaves as the empty set for reading purposes. -/
def lookupListeners : List (String × List Handler) → String → List Handler
  | [], _ => []
  | kv :: rest, event => if kv.1 = event then kv.2 else lookupListeners rest event

/-- The current listener set for an event, in subscription order. -/
def getListeners (em : EventEmitter) (event : String) : List Handler :=
  lookupListeners em.listeners event

/-- Addition to a JavaScript `Set`: a no-op when the element is already a
member, otherwise appended at the end (insertion order). -/
def setAdd (hs : List Handler) (h : Handler) : List Handler :=
  if h ∈ hs then hs else hs ++ [h]

/-- The map update performed by `on`: create the entry on first use, then
`Set.add` the callback. -/
def updateListeners : List (String × List Handler) → String → Handler →
    List (String × List Handler)
  | [], event, h => [(event, [h])]
  | kv :: rest, event, h =>
    if kv.1 = event then (kv.1, setAdd kv.2 h) :: rest
    else kv :: updateListeners rest event h

/-- Method `on` from `event-emitter.ts` (the spec name is `subscribe`).
The unsubscribe closure it returns is exactly `EventEmitter.off event h`. -/
def EventEmitter.on (em : EventEmitter) (event : String) (h : Handler) : EventEmitter :=
  ⟨updateListeners em.listeners event h⟩

/-- The map update performed by `off`: `Set.delete` of the callback from
the entry of the event, when present. -/
def removeListener : List (String × List Handler) → String → Handler →
    List (String × List Handler)
  | [], _, _ => []
  | kv :: rest, event, h =>
    if kv.1 = event then (kv.1, kv.2.filter (fun x => x != h)) :: rest
    else kv :: removeListener rest event h

/-- Method `off` from `event-emitter.ts` (the spec name is
`unsubscribe`). -/
def EventEmitter.off (em : EventEmitter) (event : String) (h : Handler) : EventEmitter :=
  ⟨removeListener em.listeners event h⟩

/-- The `forEach` loop of `emit`: each callback is invoked in order inside
a `try`/`catch`; a thrown message is caught (and logged) rather than
re-raised.  Returns, in invocation order, each invoked handler paired with
the error caught from it, if any.  Totality of this function is the
propagation guarantee: `emit` itself never throws. -/
def runHandlers (behav : Handler → Payload → Except String Unit)
    (payload : Payload) : List Handler → List (Handler × Option String)
  | [] => []
  | h :: rest =>
    (h, match behav h payload with
        | .ok _ => none
        | .error e => some e) :: runHandlers behav payload rest

/-- Method `emit` from `event-emitter.ts` (the spec name is `publish`),
given the behaviour of every handler on the payload. -/
def emit (em : EventEmitter) (event : String)
    (behav : Handler → Payload → Except String Unit) (payload : Payload) :
    List (Handler × Option String) :=
  runHandlers behav payload (getListeners em event)

/-- The well-formedness invariant maintained by construction in the
source: every listener set is duplicate-free (it is a JavaScript
`Set`). -/
def EmitterWF (em : EventEmitter) : Prop :=
  ∀ event, (getListeners em event).Nodup

/-! ## Model rate table (`model-configs.ts`) -/

/-- The `AIProviderType` union. Modelled from the spec: the interface file
`src/core/domain/interfaces/llm-provider.ts` is not in the source tree;
the four provider identifiers are those of `AI_PROVIDERS` in
`model-configs.ts`. -/
inductive AIProviderType where
  | claude
  | gemini
  | openai
  | grok
  deriving DecidableEq, Repr

/-- The `ModelConfig` interface from `model-configs.ts`. -/
structure ModelConfig where
  id : String
  displayName : String
  provider : AIProviderType
  inputCostPer1M : ℚ
  outputCostPer1M : ℚ
  maxInputTokens : Nat
  maxOutputTokens : Nat
  supportsVision : Bool
  supportsStreaming : Bool
  deriving DecidableEq, Repr

/-- The `MODEL_CONFIGS` record from `model-configs.ts`, as an association
list in key-insertion order. -/
def MODEL_CONFIGS : List (String × ModelConfig) :=
  [ ("claude-sonnet",
     { id := "claude-sonnet-4-20250514", displayName := "Claude Sonnet 4",
       provider := .claude, inputCostPer1M := 3.0, outputCostPer1M := 15.0,
       maxInputTokens := 200000, maxOutputTokens := 8192,
       supportsVision := true, supportsStreaming := true }),
    ("claude-haiku",
     { id := "claude-3-5-haiku-20241022", displayName := "Claude 3.5 Haiku",
       provider := .claude, inputCostPer1M := 0.8, outputCostPer1M := 4.0,
       maxInputTokens := 200000, maxOutputTokens := 8192,
       supportsVision := true, supportsStreaming := true }),
    ("gemini-flash",
     { id := "gemini-2.0-flash", displayName := "Gemini 2.0 Flash",
       provider := .gemini, inputCostPer1M := 0.075, outputCostPer1M := 0.3,
       maxInputTokens := 1000000, maxOutputTokens := 8192,
       supportsVision := true, supportsStreaming := true }),
    ("gemini-pro",
     { id := "gemini-1.5-pro", displayName := "Gemini 1.5 Pro",
       provider := .gemini, inputCostPer1M := 1.25, outputCostPer1M := 5.0,
       maxInputTokens := 2000000, maxOutputTokens := 8192,
       supportsVision := true, supportsStreaming := true }),
    ("gpt-4o",
     { id := "gpt-4o", displayName := "GPT-4o",
       provider := .openai, inputCostPer1M := 2.5, outputCostPer1M := 10.0,
       maxInputTokens := 128000, maxOutputTokens := 16384,
       supportsVision := true, supportsStreaming := true }),
    ("gpt-4o-mini",
     { id := "gpt-4o-mini", displayName := "GPT-4o Mini",
       provider := .openai, inputCostPer1M := 0.15, outputCostPer1M := 0.6,
       maxInputTokens := 128000, maxOutputTokens := 16384,
       supportsVision := true, supportsStreaming := true }),
    ("grok-3-mini",
     { id := "grok-3-mini", displayName := "Grok 3 Mini",
       provider := .grok, inputCostPer1M := 0.3, outputCostPer1M := 0.5,
       maxInputTokens := 131072, maxOutputTokens := 8192,
       supportsVision := false, supportsStreaming := true }) ]

/-- Function `calculateCost` from `model-configs.ts`. -/
def calculateCost (modelKey : String) (inputTokens outputTokens : ℚ) : ℚ :=
  match (MODEL_CONFIGS.find? (fun kv => kv.1 == modelKey)).map Prod.snd with
  | none => 0
  | some config =>
    inputTokens / 1000000 * config.inputCostPer1M +
      outputTokens / 1000000 * config.outputCostPer1M

/-- The `Object.values(MODEL_CONFIGS)` list, in key-insertion order. -/
def modelConfigValues : List ModelConfig :=
  MODEL_CONFIGS.map Prod.snd

/-- Function `getModelConfigById` from `model-configs.ts`. -/
def getModelConfigById (modelId : String) : Option ModelConfig :=
  modelConfigValues.find? (fun m => m.id == modelId)

/-- The property names of a `ModelConfig` object literal, in declaration
order: what `Object.keys(modelConfig)` enumerates inside
`AIService.estimateCost`. -/
def modelConfigObjectKeys : List String :=
  ["id", "displayName", "provider", "inputCostPer1M", "outputCostPer1M",
   "maxInputTokens", "maxOutputTokens", "supportsVision", "supportsStreaming"]

/-! ## AIService (`ai-service.ts`) -/

/-- Modelled from the spec: the `AISettings` persisted-settings shape of
section 6 (the interface file `llm-provider.ts` is not in the source
tree): provider selection, per-provider credentials and model ids, and the
optional budget ceiling.  The feature-model overrides are omitted: no
claim concerns them. -/
structure AISettings where
  provider : AIProviderType
  apiKeys : AIProviderType → Option String
  models : AIProviderType → String
  budgetLimit : Option ℚ

/-- Modelled from the spec: an `AIMessage` is a role-tagged message. -/
inductive AIRole where
  | system
  | user
  | assistant
  deriving DecidableEq, Repr

/-- Modelled from the spec: a role-tagged message handed to a provider
adapter. -/
structure AIMessage where
  role : AIRole
  content : String
  deriving DecidableEq, Repr

/-- Modelled from the spec: `AIRequestOptions` request options
`{model, temperature?, maxTokens?}`. -/
structure AIRequestOptions where
  model : Option String
  temperature : Option ℚ
  maxTokens : Option Nat
  deriving DecidableEq, Repr

/-- The `AIService` class state: the provider registry (adapters are
external collaborators, so the registry records only which identifiers are
registered) and the current settings. -/
structure AIService where
  providers : AIProviderType → Bool
  settings : AISettings

/-- Method `getCurrentProvider`: `this.providers.get(this.settings.provider)`. -/
def getCurrentProvider (svc : AIService) : Option AIProviderType :=
  if svc.providers svc.settings.provider then some svc.settings.provider else none

/-- Method `getCurrentApiKey`: `this.settings.apiKeys[this.settings.provider]`. -/
def getCurrentApiKey (svc : AIService) : Option String :=
  svc.settings.apiKeys svc.settings.provider

/-- Method `getCurrentModel`: `this.settings.models[this.settings.provider]`. -/
def getCurrentModel (svc : AIService) : String :=
  svc.settings.models svc.settings.provider

/-- JavaScript falsiness of an optional string: `undefined` or the empty
string. -/
def falsyStr : Option String → Bool
  | none => true
  | some s => s = ""

/-- The defunctionalised result of `generateText`: either a structured
unsuccessful response, the thrown `BudgetExceededError` (with its
`currentSpend` and `limit` fields), or the delegated call
`provider.generateText(messages, apiKey, mergedOptions)` with exactly the
arguments the adapter receives. -/
inductive GenOutcome where
  | failure (error : String)
  | budgetExceeded (currentSpend limit : ℚ)
  | adapterCall (provider : AIProviderType) (apiKey : String)
      (options : AIRequestOptions) (messages : List AIMessage)
  deriving DecidableEq, Repr

/-- The merged options `{ model: this.settings.models[provider], ...options }`:
caller-supplied fields override the resolved default model. -/
def mergeOptions (svc : AIService) (options : Option AIRequestOptions) :
    AIRequestOptions :=
  match options with
  | none => { model := some (getCurrentModel svc), temperature := none, maxTokens := none }
  | some o =>
    { model := some (o.model.getD (getCurrentModel svc))
      temperature := o.temperature
      maxTokens := o.maxTokens }

/-- Method `generateText` from `ai-service.ts`: resolve provider and key,
fail softly when either is missing; when a budget limit is set (JavaScript
truthiness: present and nonzero) and `currentSpend` is supplied and
`currentSpend >= budgetLimit`, throw `BudgetExceededError` before any
adapter interaction; otherwise delegate to the adapter with the merged
options. -/
def generateText (svc : AIService) (messages : List AIMessage)
    (options : Option AIRequestOptions) (currentSpend : Option ℚ) :
    GenOutcome :=
  match getCurrentProvider svc with
  | none => .failure "No provider selected"
  | some provider =>
    if falsyStr (getCurrentApiKey svc) then .failure "No API key configured"
    else
      let apiKey := (getCurrentApiKey svc).getD ""
      match svc.settings.budgetLimit, currentSpend with
      | some limit, some spend =>
        if limit ≠ 0 ∧ spend ≥ limit then .budgetExceeded spend limit
        else .adapterCall provider apiKey (mergeOptions svc options) messages
      | _, _ => .adapterCall provider apiKey (mergeOptions svc options) messages

/-- Whether an outcome is the thrown budget failure. -/
def isBudgetExceeded : GenOutcome → Bool
  | .budgetExceeded _ _ => true
  | _ => false

/-- Method `estimateCost` from `ai-service.ts`, verbatim: the model key
passed to `calculateCost` is
`Object.keys(modelConfig).find((key) => modelConfig.id === modelId) || ''`
(note the predicate never mentions `key`). -/
def estimateCost (svc : AIService) (inputTokens outputTokens : ℚ) : ℚ :=
  let modelId := getCurrentModel svc
  match getModelConfigById modelId with
  | none => 0
  | some modelConfig =>
    calculateCost
      ((modelConfigObjectKeys.find? (fun _ => modelConfig.id == modelId)).getD "")
      inputTokens outputTokens

/-- Modelled from the spec: the stated contract of `estimateCost` —
`(inputTokens/1e6) * inputCostPer1M + (outputTokens/1e6) * outputCostPer1M`
over the published rates of the currently selected model (section 4.4 and
section 6 of the spec).  Used as the refinement target for C5. -/
def estimateCostSpec (svc : AIService) (inputTokens outputTokens : ℚ) : ℚ :=
  match getModelConfigById (getCurrentModel svc) with
  | none => 0
  | some c =>
    inputTokens / 1000000 * c.inputCostPer1M +
      outputTokens / 1000000 * c.outputCostPer1M

/-! ## Concrete scenarios used by the claims -/

/-- An executor that throws on every invocation, with a message that
records the `retryCount` of the job it was handed. -/
def failExec : Executor := fun j => ⟨[], .error ("err-" ++ toString j.retryCount)⟩

/-- An executor that reports no progress and resolves immediately. -/
def succExec : Executor := fun _ => ⟨[], .ok 0⟩

/-- An executor whose progress reports decrease: 50 then 10. -/
def progExec : Executor := fun _ => ⟨[(50, none), (10, none)], .ok 7⟩

/-- The C1 scenario job: `createJob` with `maxRetries = 2`. -/
def c1Job : Job := createJob .analyzeContent 0 ⟨none, some 2⟩ 0 0

/-- The C1 scenario state just after the job is admitted and dispatched:
the always-failing executor is running it. -/
def c1s1 : QueueState :=
  enqueueCreated (registerExecutor QueueState.init .analyzeContent failExec) c1Job

/-- The C1 scenario after both executor invocations settle. -/
def c1Run : QueueState := applyActions [.finish, .finish] c1s1

/-- The snapshot of the C1 job while its first invocation is running. -/
def c1RunningJob : Job := { c1Job with status := .running, startedAt := some 0 }

/-- Queue with a successful executor registered, for the C3 scenarios. -/
def c3Base : QueueState := registerExecutor QueueState.init .analyzeContent succExec

/-- C3, literal reading: four jobs enqueued with priorities 5, 1, 5, 3 (ids
0, 1, 2, 3) with nothing else happening between the enqueues, then every
executor promise settles. -/
def c3Unpaused : QueueState :=
  applyActions
    [.enqueue .analyzeContent 0 (some 5), .enqueue .analyzeContent 1 (some 1),
     .enqueue .analyzeContent 2 (some 5), .enqueue .analyzeContent 3 (some 3),
     .finish, .finish, .finish, .finish] c3Base

/-- C3, amended reading: the same four enqueues with the queue paused, then
a resume. -/
def c3Paused : QueueState :=
  applyActions
    [.pause,
     .enqueue .analyzeContent 0 (some 5), .enqueue .analyzeContent 1 (some 1),
     .enqueue .analyzeContent 2 (some 5), .enqueue .analyzeContent 3 (some 3),
     .resume, .finish, .finish, .finish, .finish] c3Base

/-- The C8 scenario after the first progress report (50). -/
def c8Run1 : QueueState :=
  applyActions [.enqueue .analyzeContent 0 none, .progress]
    (registerExecutor QueueState.init .analyzeContent progExec)

/-- The C8 scenario after the second, smaller progress report (10). -/
def c8Run2 : QueueState := progressStep c8Run1

/-- Ids of the jobs of `job:started` events, in order: the dispatch
order. -/
def startedIds (evs : List Event) : List Nat :=
  evs.filterMap fun e =>
    match e with
    | .jobStarted j => some j.id
    | _ => none

/-- Priorities of the jobs of `job:started` events, in order. -/
def startedPriorities (evs : List Event) : List ℚ :=
  evs.filterMap fun e =>
    match e with
    | .jobStarted j => some j.priority
    | _ => none

/-- The job snapshots carried by `job:failed` events, in order. -/
def failedJobs (evs : List Event) : List Job :=
  evs.filterMap fun e =>
    match e with
    | .jobFailed j => some j
    | _ => none

/-- The status carried by each job-payload event, in order: the externally
visible status trajectory. -/
def statusTrace (evs : List Event) : List JobStatus :=
  evs.filterMap fun e =>
    match e with
    | .jobCreated j => some j.status
    | .jobStarted j => some j.status
    | .jobCompleted j => some j.status
    | .jobFailed j => some j.status
    | .jobCancelled j => some j.status
    | _ => none

/-- A service with the GPT-4o model selected and fully configured, for
C5. -/
def gpt4oSvc : AIService :=
  { providers := fun _ => true
    settings :=
      { provider := .openai
        apiKeys := fun _ => some "key"
        models := fun _ => "gpt-4o"
        budgetLimit := none } }

/-- A fully configured service whose budget limit is the configured value
`0`, for the C2 counterexample. -/
def budget0Svc : AIService :=
  { providers := fun _ => true
    settings :=
      { provider := .claude
        apiKeys := fun _ => some "key"
        models := fun _ => "claude-sonnet-4-20250514"
        budgetLimit := some 0 } }

/-- A fully configured service with budget limit 1.00, for the C2
witness. -/
def budget1Svc : AIService :=
  { providers := fun _ => true
    settings :=
      { provider := .claude
        apiKeys := fun _ => some "key"
        models := fun _ => "claude-sonnet-4-20250514"
        budgetLimit := some 1 } }

/-- A queue state with exactly one pending job (id 7), for the C7
witness. -/
def c7Job : Job := createJob .analyzeContent 0 ⟨none, none⟩ 7 0

/-- The C7 witness state: job 7 pending, nothing running, queue paused so
the job stays pending. -/
def c7State : QueueState :=
  { QueueState.init with paused := true, queue := [c7Job] }

/-- An emitter with handlers 1 and 2 subscribed to one event in that
order, for the C6 witness. -/
def c6Emitter : EventEmitter :=
  EventEmitter.on (EventEmitter.on EventEmitter.empty "job:created" 1) "job:created" 2

/-- A handler behaviour where handler 1 throws and every other handler
returns normally, for the C6 witness. -/
def c6Behav : Handler → Payload → Except String Unit :=
  fun h _ => if h = 1 then .error "boom" else .ok ()

/-- The inductive invariant of the scheduler state: every job in the
pending list has pending status, and the job in the running slot (if any)
has running status. -/
def Inv (s : QueueState) : Prop :=
  (∀ j ∈ s.queue, j.status = JobStatus.pending) ∧
  (∀ fl, s.inflight = some fl → fl.job.status = JobStatus.running)

/-- Every `job:completed` event emitted so far carried `progress = 100`. -/
def CompletedProgress (s : QueueState) : Prop :=
  ∀ j, Event.jobCompleted j ∈ s.events → j.progress = 100

/-! ## Lemmas about the scheduler -/

theorem mem_dispatchLoop_events (execs : JobType → Option Executor) (now : Nat) :
    ∀ (q : List Job) (evs : List Event) (e : Event),
      e ∈ evs → e ∈ (dispatchLoop execs now q evs).2.2 := by
  intro q
  induction q with
  | nil =>
    intro evs e he
    simpa [dispatchLoop] using Or.inl he
  | cons job rest ih =>
    intro evs e he
    unfold dispatchLoop
    cases hex : execs job.type with
    | none => exact ih _ _ (List.mem_append.mpr (Or.inl he))
    | some ex => simpa using Or.inl he

theorem mem_dispatch_events {s : QueueState} {e : Event} (he : e ∈ s.events) :
    e ∈ (dispatch s).events := by
  unfold dispatch
  split
  · split
    · simpa using Or.inl he
    · exact he
  · exact mem_dispatchLoop_events _ _ _ _ _ he

/-! ## C9: fields of a freshly enqueued job -/

/-- C9: every job returned by `enqueue` starts with status pending,
progress 0, retryCount 0, priority equal to the supplied priority or 5
when omitted, and maxRetries 3 (`enqueue` never passes a `maxRetries`
option); a `job:created` event carrying exactly that job is emitted. -/
theorem claim_C9 (s : QueueState) (type : JobType) (data : Nat)
    (priority : Option ℚ) :
    ((enqueue s type data priority).2.status = JobStatus.pending) ∧
    ((enqueue s type data priority).2.progress = 0) ∧
    ((enqueue s type data priority).2.retryCount = 0) ∧
    ((enqueue s type data priority).2.priority = priority.getD 5) ∧
    ((enqueue s type data priority).2.maxRetries = 3) ∧
    Event.jobCreated (enqueue s type data priority).2 ∈
      (enqueue s type data priority).1.events := by
  refine ⟨rfl, rfl, rfl, rfl, rfl, ?_⟩
  unfold enqueue enqueueCreated
  exact mem_dispatch_events (by simp)

/-! ## C7: cancellation scope -/

theorem cancelGo_none_of_forall {jobId : Nat} :
    ∀ {q : List Job}, (∀ j ∈ q, j.id ≠ jobId) → cancelGo jobId q = none := by
  intro q
  induction q with
  | nil => intro _; rfl
  | cons a rest ih =>
    intro hall
    have ha : a.id ≠ jobId := hall a (by simp)
    unfold cancelGo
    rw [if_neg ha, ih (fun x hx => hall x (List.mem_cons_of_mem _ hx))]

theorem forall_of_cancelGo_none {jobId : Nat} :
    ∀ {q : List Job}, cancelGo jobId q = none → ∀ j ∈ q, j.id ≠ jobId := by
  intro q
  induction q with
  | nil => intro _ j hj; cases hj
  | cons a rest ih =>
    intro hg j hj
    unfold cancelGo at hg
    by_cases ha : a.id = jobId
    · rw [if_pos ha] at hg; cases hg
    · rw [if_neg ha] at hg
      cases hr : cancelGo jobId rest with
      | none =>
        rcases List.mem_cons.mp hj with rfl | hm
        · exact ha
        · exact ih hr j hm
      | some pr => rw [hr] at hg; cases hg

theorem exists_of_cancelGo_some {jobId : Nat} :
    ∀ {q : List Job} {p : Job × List Job},
      cancelGo jobId q = some p → p.1 ∈ q ∧ p.1.id = jobId := by
  intro q
  induction q with
  | nil => intro p hp; cases hp
  | cons a rest ih =>
    intro p hp
    unfold cancelGo at hp
    by_cases ha : a.id = jobId
    · rw [if_pos ha] at hp
      cases hp
      exact ⟨by simp, ha⟩
    · rw [if_neg ha] at hp
      cases hr : cancelGo jobId rest with
      | none => rw [hr] at hp; cases hp
      | some pr =>
        rw [hr] at hp
        cases hp
        obtain ⟨hm, hid⟩ := ih hr
        exact ⟨List.mem_cons_of_mem _ hm, hid⟩

theorem cancelGo_append {jobId : Nat} (pre : List Job) (j : Job)
    (post : List Job) (hpre : ∀ x ∈ pre, x.id ≠ jobId) (hj : j.id = jobId) :
    cancelGo jobId (pre ++ j :: post) = some (j, pre ++ post) := by
  induction pre with
  | nil => simp [cancelGo, hj]
  | cons a t ih =>
    have ha : a.id ≠ jobId := hpre a (by simp)
    have ht := ih (fun x hx => hpre x (List.mem_cons_of_mem _ hx))
    simp [cancelGo, ha, ht]

/-- C7: `cancel(jobId)` returns `true` exactly when a job with that id is
pending, in which case the first such job is removed from the pending list,
its status set to cancelled and `job:cancelled` emitted; otherwise (the id
names the running job, a terminal job, or no job) it returns `false` and
leaves the state unchanged. -/
theorem claim_C7 (s : QueueState) (jobId : Nat) :
    ((cancel s jobId).2 = true ↔ ∃ j ∈ s.queue, j.id = jobId) ∧
    ((∀ j ∈ s.queue, j.id ≠ jobId) → cancel s jobId = (s, false)) ∧
    (∀ pre j post, s.queue = pre ++ j :: post →
      (∀ x ∈ pre, x.id ≠ jobId) → j.id = jobId →
      cancel s jobId =
        ({ s with
            queue := pre ++ post
            events := s.events ++
              [Event.jobCancelled { j with status := JobStatus.cancelled }] },
          true)) := by
  refine ⟨⟨?_, ?_⟩, ?_, ?_⟩
  · intro h
    unfold cancel at h
    cases hg : cancelGo jobId s.queue with
    | none => rw [hg] at h; cases h
    | some pr =>
      obtain ⟨hm, hid⟩ := exists_of_cancelGo_some hg
      exact ⟨pr.1, hm, hid⟩
  · rintro ⟨j, hj, hid⟩
    unfold cancel
    cases hg : cancelGo jobId s.queue with
    | none => exact absurd hid (forall_of_cancelGo_none hg j hj)
    | some pr => rfl
  · intro hall
    unfold cancel
    rw [cancelGo_none_of_forall hall]
  · intro pre j post hq hpre hid
    unfold cancel
    rw [hq, cancelGo_append pre j post hpre hid]

/-- Witness for C7 at a concrete state: cancelling the pending job with
id 7 removes it and reports `true`; cancelling an unknown id reports
`false` and changes nothing. -/
theorem claim_C7_witness :
    cancel c7State 7 =
      ({ c7State with
          queue := []
          events := [Event.jobCancelled { c7Job with status := JobStatus.cancelled }] },
        true) ∧
    cancel c7State 99 = (c7State, false) := by
  constructor
  · simpa using (claim_C7 c7State 7).2.2 [] c7Job [] rfl (by simp) rfl
  · exact (claim_C7 c7State 99).2.1 (by decide)

/-! ## C1: retry state machine -/

/-- C1 counterexample: in the concrete always-failing `maxRetries = 2`
scenario (`c1Run`), the executor is started only twice (not three times),
the status trajectory shows two running phases, and the final
`job:failed` snapshot carries `retryCount = 2`, not 3: `canRetry` uses a
strict comparison, so a job whose incremented `retryCount` equals
`maxRetries` fails instead of retrying. -/
theorem claim_C1_counterexample :
    startedIds c1Run.events = [0, 0] ∧
    statusTrace c1Run.events =
      [JobStatus.pending, JobStatus.running, JobStatus.running, JobStatus.failed] ∧
    (failedJobs c1Run.events).map Job.retryCount = [2] ∧
    ¬ (failedJobs c1Run.events).map Job.retryCount = [3] := by
  decide

/-- C1 (amended): on executor failure `retryCount` is incremented and, if
the incremented `retryCount` is still strictly less than `maxRetries`, the
job is reset to pending and reinserted at the front of the pending list;
otherwise it is marked failed with the thrown message and `job:failed` is
emitted.  Hence the `maxRetries = 2` always-failing job transitions
pending, running, pending, running, failed, ending with `retryCount = 2`
and `error` equal to the message of the last thrown error. -/
theorem claim_C1_amended (s : QueueState) (job : Job) (msg : String)
    (h : s.inflight = some ⟨job, [], .error msg⟩) :
    (job.retryCount + 1 < job.maxRetries →
      finalizeRun s = { s with
        inflight := none
        queue := { job with
          retryCount := job.retryCount + 1
          status := JobStatus.pending } :: s.queue }) ∧
    (¬ job.retryCount + 1 < job.maxRetries →
      finalizeRun s = { s with
        inflight := none
        events := s.events ++ [Event.jobFailed { job with
          retryCount := job.retryCount + 1
          status := JobStatus.failed
          error := some msg
          completedAt := some s.now }] }) ∧
    ((finalizeRun c1s1).queue.map (fun j => (j.status, j.retryCount)) =
      [(JobStatus.pending, 1)]) ∧
    statusTrace c1Run.events =
      [JobStatus.pending, JobStatus.running, JobStatus.running, JobStatus.failed] ∧
    (failedJobs c1Run.events).map (fun j => (j.retryCount, j.error)) =
      [(2, some "err-1")] := by
  refine ⟨?_, ?_, by decide, by decide, by decide⟩
  · intro hlt
    have hb : canRetry { job with retryCount := job.retryCount + 1 } = true := by
      simpa [canRetry] using hlt
    unfold finalizeRun
    rw [h]
    simp [hb]
  · intro hge
    have hb : canRetry { job with retryCount := job.retryCount + 1 } = false := by
      simpa [canRetry] using hge
    unfold finalizeRun
    rw [h]
    simp [hb]

/-- Witness for C1 (amended) at the first failure of the concrete
scenario: the incremented retry count 1 is below `maxRetries = 2`, so the
job reappears at the head of the pending list as pending with
`retryCount = 1`. -/
theorem claim_C1_witness :
    (finalizeRun c1s1).queue.map (fun j => (j.status, j.retryCount)) =
      [(JobStatus.pending, 1)] := by
  have h : c1s1.inflight = some ⟨c1RunningJob, [], Except.error "err-0"⟩ := by
    decide
  have h2 := (claim_C1_amended c1s1 c1RunningJob "err-0" h).1 (by decide)
  rw [h2]
  decide

/-! ## C3: priority insertion and dispatch order -/

theorem insertByPriority_cons_head {q : List Job} {a job : Job}
    (ha : job.priority < a.priority) :
    insertByPriority (a :: q) job = job :: a :: q := by
  unfold insertByPriority
  rw [List.findIdx?_cons]
  simp [ha]

theorem insertByPriority_cons_tail {q : List Job} {a job : Job}
    (ha : ¬ job.priority < a.priority) :
    insertByPriority (a :: q) job = a :: insertByPriority q job := by
  unfold insertByPriority
  rw [List.findIdx?_cons]
  simp only [ha, decide_False, Bool.false_eq_true, if_false]
  rw [List.findIdx?_succ]
  cases hf : List.findIdx? (fun j => decide (job.priority < j.priority)) q with
  | none => simp [hf]
  | some i => simp [hf]

/-- C3 counterexample: with the four jobs enqueued back to back (ids 0, 1,
2, 3 with priorities 5, 1, 5, 3) and no pause, the first enqueue
dispatches its own job immediately — `enqueue` calls `processNext` and the
queue is idle — so the dispatch order is the first priority-5 job, then
1, 3 and the second priority-5 job, not the claimed priority order. -/
theorem claim_C3_counterexample :
    startedIds c3Unpaused.events = [0, 1, 3, 2] ∧
    startedIds c3Unpaused.events ≠ [1, 3, 0, 2] ∧
    startedPriorities c3Unpaused.events = [5, 1, 3, 5] := by
  decide

/-- C3 (amended): a new job is inserted immediately before the first
pending job whose priority is strictly greater than its own (at the end
when none exists), preserving FIFO order among equal priorities; and when
the four jobs with priorities 5, 1, 5, 3 are enqueued while the queue is
paused, the dispatch order after resuming is the priority-1 job, the
priority-3 job, the first priority-5 job, then the second priority-5 job.
Without pausing, the first enqueued job dispatches first. -/
theorem claim_C3_amended :
    (∀ (q : List Job) (job : Job),
      insertByPriority q job =
        q.takeWhile (fun j => j.priority ≤ job.priority) ++
          job :: q.dropWhile (fun j => j.priority ≤ job.priority)) ∧
    startedIds c3Paused.events = [1, 3, 0, 2] := by
  refine ⟨?_, by decide⟩
  intro q job
  induction q with
  | nil => rfl
  | cons a t ih =>
    by_cases ha : job.priority < a.priority
    · have hle : ¬ a.priority ≤ job.priority := not_le.mpr ha
      rw [insertByPriority_cons_head ha]
      simp [List.takeWhile_cons, List.dropWhile_cons, hle]
    · have hle : a.priority ≤ job.priority := not_lt.mp ha
      rw [insertByPriority_cons_tail ha, ih]
      simp [List.takeWhile_cons, List.dropWhile_cons, hle]

/-! ## C4: single running job -/

theorem dispatchLoop_cons_none (execs : JobType → Option Executor) (now : Nat)
    (job : Job) (rest : List Job) (evs : List Event)
    (hex : execs job.type = none) :
    dispatchLoop execs now (job :: rest) evs =
      dispatchLoop execs now rest (evs ++ [.jobFailed { job with
        status := .failed
        error := some ("No executor registered for job type: " ++
          jobTypeName job.type) }]) := by
  conv_lhs => unfold dispatchLoop
  rw [hex]

theorem dispatchLoop_cons_some (execs : JobType → Option Executor) (now : Nat)
    (job : Job) (rest : List Job) (evs : List Event) (ex : Executor)
    (hex : execs job.type = some ex) :
    dispatchLoop execs now (job :: rest) evs =
      (rest,
        some ⟨{ job with status := .running, startedAt := some now },
          (ex { job with status := .running, startedAt := some now }).reports,
          (ex { job with status := .running, startedAt := some now }).outcome⟩,
        evs ++ [.jobStarted { job with status := .running, startedAt := some now }]) := by
  conv_lhs => unfold dispatchLoop
  rw [hex]

theorem dispatchLoop_inv (execs : JobType → Option Executor) (now : Nat) :
    ∀ (q : List Job) (evs : List Event),
      (∀ j ∈ q, j.status = JobStatus.pending) →
      (∀ j ∈ (dispatchLoop execs now q evs).1, j.status = JobStatus.pending) ∧
      (∀ fl, (dispatchLoop execs now q evs).2.1 = some fl →
        fl.job.status = JobStatus.running) := by
  intro q
  induction q with
  | nil =>
    intro evs _
    constructor
    · intro j hj
      simp [dispatchLoop] at hj
    · intro fl hfl
      simp [dispatchLoop] at hfl
  | cons job rest ih =>
    intro evs hq
    cases hex : execs job.type with
    | none =>
      rw [dispatchLoop_cons_none execs now job rest evs hex]
      exact ih _ (fun j hj => hq j (List.mem_cons_of_mem _ hj))
    | some ex =>
      rw [dispatchLoop_cons_some execs now job rest evs ex hex]
      constructor
      · intro j hj
        exact hq j (List.mem_cons_of_mem _ hj)
      · intro fl hfl
        have hx := (Option.some.inj hfl).symm
        subst hx
        rfl

theorem allJobs_toList (s : QueueState) :
    allJobs s = (s.inflight.toList.map InFlight.job) ++ s.queue := by
  unfold allJobs QueueState.running
  cases s.inflight <;> rfl

theorem dispatch_inv {s : QueueState} (h : Inv s) : Inv (dispatch s) := by
  unfold dispatch
  split
  · split
    · exact ⟨h.1, h.2⟩
    · exact h
  · exact ⟨(dispatchLoop_inv _ _ _ _ h.1).1, (dispatchLoop_inv _ _ _ _ h.1).2⟩

theorem mem_insertByPriority {q : List Job} {job a : Job}
    (ha : a ∈ insertByPriority q job) : a ∈ q ∨ a = job := by
  induction q with
  | nil =>
    simp [insertByPriority, List.findIdx?_nil] at ha
    exact Or.inr ha
  | cons b t ih =>
    by_cases hb : job.priority < b.priority
    · rw [insertByPriority_cons_head hb] at ha
      rcases List.mem_cons.mp ha with rfl | ha2
      · exact Or.inr rfl
      · exact Or.inl ha2
    · rw [insertByPriority_cons_tail hb] at ha
      rcases List.mem_cons.mp ha with rfl | ha2
      · exact Or.inl (by simp)
      · rcases ih ha2 with h1 | h2
        · exact Or.inl (List.mem_cons_of_mem _ h1)
        · exact Or.inr h2

theorem subset_of_cancelGo_some {jobId : Nat} :
    ∀ {q : List Job} {p : Job × List Job},
      cancelGo jobId q = some p → ∀ a ∈ p.2, a ∈ q := by
  intro q
  induction q with
  | nil => intro p hp; cases hp
  | cons b rest ih =>
    intro p hp a ha
    unfold cancelGo at hp
    by_cases hb : b.id = jobId
    · rw [if_pos hb] at hp
      cases hp
      exact List.mem_cons_of_mem _ ha
    · rw [if_neg hb] at hp
      cases hr : cancelGo jobId rest with
      | none => rw [hr] at hp; cases hp
      | some pr =>
        rw [hr] at hp
        cases hp
        rcases List.mem_cons.mp ha with rfl | ha2
        · exact List.mem_cons_self _ _
        · exact List.mem_cons_of_mem _ (ih hr a ha2)

theorem enqueueCreated_inv {s : QueueState} {job : Job} (h : Inv s)
    (hjob : job.status = JobStatus.pending) : Inv (enqueueCreated s job) := by
  unfold enqueueCreated
  apply dispatch_inv
  constructor
  · intro j hj
    rcases mem_insertByPriority hj with h1 | rfl
    · exact h.1 j h1
    · exact hjob
  · exact h.2

theorem progressStep_inv {s : QueueState} (h : Inv s) : Inv (progressStep s) := by
  unfold progressStep
  cases hfl : s.inflight with
  | none => exact h
  | some fl =>
    obtain ⟨job, reports, out⟩ := fl
    cases reports with
    | nil => exact h
    | cons r rest =>
      obtain ⟨p, m⟩ := r
      constructor
      · exact h.1
      · intro fl2 hfl2
        have hx := (Option.some.inj hfl2).symm
        subst hx
        exact h.2 ⟨job, (p, m) :: rest, out⟩ hfl

theorem finalizeRun_inv {s : QueueState} (h : Inv s) : Inv (finalizeRun s) := by
  cases hfl : s.inflight with
  | none =>
    simp only [finalizeRun, hfl]
    exact h
  | some fl =>
    obtain ⟨job, reports, out⟩ := fl
    cases reports with
    | nil =>
      cases out with
      | ok res =>
        simp only [finalizeRun, hfl]
        refine ⟨h.1, ?_⟩
        intro fl2 hfl2
        cases hfl2
      | error msg =>
        simp only [finalizeRun, hfl]
        by_cases hc : canRetry { job with retryCount := job.retryCount + 1 } = true
        · rw [if_pos hc]
          refine ⟨?_, ?_⟩
          · intro j hj
            rcases List.mem_cons.mp hj with rfl | hm
            · rfl
            · exact h.1 j hm
          · intro fl2 hfl2
            cases hfl2
        · rw [if_neg hc]
          refine ⟨h.1, ?_⟩
          intro fl2 hfl2
          cases hfl2
    | cons r rest =>
      simp only [finalizeRun, hfl]
      exact h

theorem finishStep_inv {s : QueueState} (h : Inv s) : Inv (finishStep s) := by
  unfold finishStep
  cases hfl : s.inflight with
  | none => exact h
  | some fl =>
    obtain ⟨job, reports, out⟩ := fl
    cases reports with
    | nil => exact dispatch_inv (finalizeRun_inv h)
    | cons r rest => exact h

theorem applyAction_inv {s : QueueState} (h : Inv s) (a : Action) :
    Inv (applyAction s a) := by
  cases a with
  | register t ex => exact ⟨h.1, h.2⟩
  | enqueue t d p => exact enqueueCreated_inv ⟨h.1, h.2⟩ rfl
  | cancel jobId =>
    show Inv (cancel s jobId).1
    cases hg : cancelGo jobId s.queue with
    | none =>
      simp only [cancel, hg]
      exact h
    | some pr =>
      obtain ⟨j0, q0⟩ := pr
      simp only [cancel, hg]
      exact ⟨fun x hx => h.1 x (subset_of_cancelGo_some hg x hx), h.2⟩
  | pause => exact ⟨h.1, h.2⟩
  | resume => exact dispatch_inv ⟨h.1, h.2⟩
  | clear =>
    refine ⟨?_, h.2⟩
    intro j hj
    cases hj
  | progress => exact progressStep_inv h
  | finish => exact finishStep_inv h

theorem applyActions_inv :
    ∀ (acts : List Action) (s : QueueState), Inv s → Inv (applyActions acts s) := by
  intro acts
  induction acts with
  | nil => intro s h; exact h
  | cons a rest ih =>
    intro s h
    exact ih _ (applyAction_inv h a)

theorem init_inv : Inv QueueState.init := by
  constructor
  · intro j hj
    cases hj
  · intro fl hfl
    cases hfl

/-- C4: in every state reachable from a fresh queue by any interleaving of
enqueue, cancel, pause, resume, clear, executor registration, progress
reports and executor completions or failures, at most one of the jobs held
by the scheduler (the running slot plus the pending list) has running
status, and the running slot — the only place an executor invocation can
be in flight — holds at most one invocation. -/
theorem claim_C4 (acts : List Action) :
    (allJobs (applyActions acts QueueState.init)).countP
        (fun j => j.status == JobStatus.running) ≤ 1 ∧
    (applyActions acts QueueState.init).inflight.toList.length ≤ 1 := by
  have hinv := applyActions_inv acts QueueState.init init_inv
  constructor
  · have hq : (applyActions acts QueueState.init).queue.countP
        (fun j => j.status == JobStatus.running) = 0 := by
      rw [List.countP_eq_zero]
      intro j hj
      simp [hinv.1 j hj]
    rw [allJobs_toList, List.countP_append, hq]
    cases hfl : (applyActions acts QueueState.init).inflight with
    | none => simp
    | some fl =>
      cases hp : (fl.job.status == JobStatus.running) <;>
        simp [List.countP_cons, hp]
  · cases (applyActions acts QueueState.init).inflight <;> simp

/-! ## C8: progress values -/

theorem jobCompleted_dispatchLoop (execs : JobType → Option Executor)
    (now : Nat) :
    ∀ (q : List Job) (evs : List Event) (j : Job),
      Event.jobCompleted j ∈ (dispatchLoop execs now q evs).2.2 →
      Event.jobCompleted j ∈ evs := by
  intro q
  induction q with
  | nil =>
    intro evs j hj
    simp only [dispatchLoop] at hj
    rcases List.mem_append.mp hj with h1 | h1
    · exact h1
    · simp at h1
  | cons job rest ih =>
    intro evs j hj
    cases hex : execs job.type with
    | none =>
      rw [dispatchLoop_cons_none execs now job rest evs hex] at hj
      rcases List.mem_append.mp (ih _ _ hj) with h1 | h1
      · exact h1
      · simp at h1
    | some ex =>
      rw [dispatchLoop_cons_some execs now job rest evs ex hex] at hj
      rcases List.mem_append.mp hj with h1 | h1
      · exact h1
      · simp at h1

theorem dispatch_completedProgress {s : QueueState}
    (h : CompletedProgress s) : CompletedProgress (dispatch s) := by
  unfold dispatch
  split
  · split
    · intro j hj
      rcases List.mem_append.mp hj with h1 | h1
      · exact h j h1
      · simp at h1
    · exact h
  · intro j hj
    exact h j (jobCompleted_dispatchLoop _ _ _ _ j hj)

theorem applyAction_completedProgress {s : QueueState}
    (h : CompletedProgress s) (a : Action) :
    CompletedProgress (applyAction s a) := by
  cases a with
  | register t ex => exact h
  | enqueue t d p =>
    show CompletedProgress (enqueue s t d p).1
    apply dispatch_completedProgress
    intro j hj
    rcases List.mem_append.mp hj with h1 | h1
    · exact h j h1
    · simp at h1
  | cancel jobId =>
    show CompletedProgress (cancel s jobId).1
    cases hg : cancelGo jobId s.queue with
    | none =>
      simp only [cancel, hg]
      exact h
    | some pr =>
      obtain ⟨j0, q0⟩ := pr
      simp only [cancel, hg]
      intro j hj
      rcases List.mem_append.mp hj with h1 | h1
      · exact h j h1
      · simp at h1
  | pause =>
    show CompletedProgress (pause s)
    unfold pause
    intro j hj
    rcases List.mem_append.mp hj with h1 | h1
    · exact h j h1
    · simp at h1
  | resume =>
    show CompletedProgress (resume s)
    unfold resume
    apply dispatch_completedProgress
    intro j hj
    rcases List.mem_append.mp hj with h1 | h1
    · exact h j h1
    · simp at h1
  | clear =>
    show CompletedProgress (clear s)
    unfold clear
    intro j hj
    rcases List.mem_append.mp hj with h1 | h1
    · exact h j h1
    · rcases List.mem_map.mp h1 with ⟨x, _, hx⟩
      cases hx
  | progress =>
    show CompletedProgress (progressStep s)
    cases hfl : s.inflight with
    | none =>
      simp only [progressStep, hfl]
      exact h
    | some fl =>
      obtain ⟨job, reports, out⟩ := fl
      cases reports with
      | nil =>
        simp only [progressStep, hfl]
        exact h
      | cons r rest =>
        obtain ⟨p, m⟩ := r
        simp only [progressStep, hfl]
        intro j hj
        rcases List.mem_append.mp hj with h1 | h1
        · exact h j h1
        · simp at h1
  | finish =>
    show CompletedProgress (finishStep s)
    cases hfl : s.inflight with
    | none =>
      simp only [finishStep, hfl]
      exact h
    | some fl =>
      obtain ⟨job, reports, out⟩ := fl
      cases reports with
      | cons r rest =>
        simp only [finishStep, hfl]
        exact h
      | nil =>
        simp only [finishStep, hfl]
        apply dispatch_completedProgress
        cases out with
        | ok res =>
          simp only [finalizeRun, hfl]
          intro j hj
          rcases List.mem_append.mp hj with h1 | h1
          · exact h j h1
          · simp only [List.mem_singleton, Event.jobCompleted.injEq] at h1
            rw [h1]
        | error msg =>
          simp only [finalizeRun, hfl]
          by_cases hc : canRetry { job with retryCount := job.retryCount + 1 } = true
          · rw [if_pos hc]
            exact h
          · rw [if_neg hc]
            intro j hj
            rcases List.mem_append.mp hj with h1 | h1
            · exact h j h1
            · simp at h1

theorem applyActions_completedProgress :
    ∀ (acts : List Action) (s : QueueState), CompletedProgress s →
      CompletedProgress (applyActions acts s) := by
  intro acts
  induction acts with
  | nil => intro s h; exact h
  | cons a rest ih =>
    intro s h
    exact ih _ (applyAction_completedProgress h a)

/-- C8 counterexample: the scheduler applies progress reports verbatim, so
an executor reporting 50 and then 10 drives the progress of the running
job from 50 down to 10 across two successive reports — progress is not
non-decreasing while running. -/
theorem claim_C8_counterexample :
    (c8Run1.inflight.map fun fl => (fl.job.status, fl.job.progress)) =
      some (JobStatus.running, 50) ∧
    (c8Run2.inflight.map fun fl => (fl.job.status, fl.job.progress)) =
      some (JobStatus.running, 10) ∧
    c8Run2 = progressStep c8Run1 ∧
    ¬ (50 : ℚ) ≤ 10 := by
  exact ⟨by decide, by decide, rfl, by decide⟩

/-- C8 (amended): whenever a job completes its progress is exactly 100 (in
every reachable state, every `job:completed` event carries
`progress = 100`); while running, the progress of a job is simply the most
recent value reported by its executor — the scheduler stores reports
verbatim and does not enforce monotonicity. -/
theorem claim_C8_amended :
    (∀ (acts : List Action) (j : Job),
      Event.jobCompleted j ∈ (applyActions acts QueueState.init).events →
      j.progress = 100) ∧
    (∀ (s : QueueState) (job : Job) (p : ℚ) (m : Option String)
        (rest : List (ℚ × Option String)) (out : Except String Nat),
      s.inflight = some ⟨job, (p, m) :: rest, out⟩ →
      progressStep s = { s with
        inflight := some ⟨{ job with progress := p }, rest, out⟩
        events := s.events ++ [Event.jobProgress job.id p m] }) := by
  constructor
  · intro acts j hj
    exact applyActions_completedProgress acts QueueState.init
      (fun j hj => by cases hj) j hj
  · intro s job p m rest out h
    simp only [progressStep, h]

/-- Witness for C8 (amended): the completed job of the decreasing-progress
scenario carries progress 100, and the second report of that scenario sets
the stored progress to the reported value 10. -/
theorem claim_C8_witness :
    ({ id := 0, type := JobType.analyzeContent, status := JobStatus.completed,
       progress := 100, data := 0, result := some 7, error := none,
       createdAt := 0, startedAt := some 0, completedAt := some 0,
       priority := 5, retryCount := 0, maxRetries := 3 } : Job).progress = 100 ∧
    (progressStep c8Run1).events =
      c8Run1.events ++ [Event.jobProgress 0 10 none] := by
  constructor
  · exact claim_C8_amended.1
      [.register .analyzeContent progExec, .enqueue .analyzeContent 0 none,
        .progress, .progress, .finish]
      _ (by decide)
  · have h := claim_C8_amended.2 c8Run1
      { id := 0, type := JobType.analyzeContent, status := JobStatus.running,
        progress := 50, data := 0, result := none, error := none,
        createdAt := 0, startedAt := some 0, completedAt := none,
        priority := 5, retryCount := 0, maxRetries := 3 }
      10 none [] (Except.ok 7) (by decide)
    rw [h]

/-! ## C2: the budget gate -/

/-- C2 counterexample: with a configured budget limit of 0 and
`currentSpend = 0` — spend at the limit — `generateText` does not raise
the budget failure: the JavaScript truthiness test `budgetLimit && ...`
skips the gate for a zero limit and the call is forwarded to the
adapter. -/
theorem claim_C2_counterexample :
    generateText budget0Svc [] none (some 0) =
      GenOutcome.adapterCall AIProviderType.claude "key"
        { model := some "claude-sonnet-4-20250514", temperature := none,
          maxTokens := none } [] ∧
    isBudgetExceeded (generateText budget0Svc [] none (some 0)) = false := by
  exact ⟨by decide, by decide⟩

/-- C2 (amended): when a provider is selected, a nonempty API key is
configured, a nonzero budget limit is configured and `currentSpend` is
supplied: spend at or above the limit raises the budget-exceeded failure
without reaching the adapter, and spend below the limit forwards the call
to the adapter with the merged options. -/
theorem claim_C2_amended (svc : AIService) (messages : List AIMessage)
    (options : Option AIRequestOptions) (k : String) (limit spend : ℚ)
    (hprov : svc.providers svc.settings.provider = true)
    (hkey : svc.settings.apiKeys svc.settings.provider = some k)
    (hk : k ≠ "")
    (hlim : svc.settings.budgetLimit = some limit)
    (hl : limit ≠ 0) :
    (limit ≤ spend →
      generateText svc messages options (some spend) =
        GenOutcome.budgetExceeded spend limit) ∧
    (spend < limit →
      generateText svc messages options (some spend) =
        GenOutcome.adapterCall svc.settings.provider k
          (mergeOptions svc options) messages) := by
  have hp : getCurrentProvider svc = some svc.settings.provider := by
    unfold getCurrentProvider
    rw [hprov]
    simp
  have hkey2 : getCurrentApiKey svc = some k := hkey
  have hfal : falsyStr (getCurrentApiKey svc) = false := by
    rw [hkey2]
    simp [falsyStr, hk]
  constructor
  · intro hge
    simp [generateText, hp, hfal, hkey2, hlim, hl, hge, falsyStr, hk]
  · intro hlt
    simp [generateText, hp, hfal, hkey2, hlim, hlt.not_le, falsyStr, hk]

/-- Witness for C2 (amended) at a service with budget limit 1.00: spend
1.00 raises the budget failure; spend 0.50 reaches the adapter. -/
theorem claim_C2_witness :
    generateText budget1Svc [] none (some 1) =
      GenOutcome.budgetExceeded 1 1 ∧
    generateText budget1Svc [] none (some (1 / 2)) =
      GenOutcome.adapterCall AIProviderType.claude "key"
        { model := some "claude-sonnet-4-20250514", temperature := none,
          maxTokens := none } [] := by
  constructor
  · exact (claim_C2_amended budget1Svc [] none "key" 1 1 rfl rfl (by decide)
      rfl (by decide)).1 (le_refl 1)
  · have h := (claim_C2_amended budget1Svc [] none "key" 1 (1 / 2) rfl rfl
      (by decide) rfl (by decide)).2 (by norm_num)
    rw [h]
    rfl

/-! ## C5: estimateCost -/

theorem calculateCost_id_key (i o : ℚ) : calculateCost "id" i o = 0 := by
  have h : (MODEL_CONFIGS.find? (fun kv => kv.1 == "id")) = none := by decide
  simp [calculateCost, h]

theorem calculateCost_empty_key (i o : ℚ) : calculateCost "" i o = 0 := by
  have h : (MODEL_CONFIGS.find? (fun kv => kv.1 == "")) = none := by decide
  simp [calculateCost, h]

/-- C5 (code bug): `estimateCost` never computes the published-rate
formula — it returns 0 for every service and every token pair, because the
predicate in `Object.keys(modelConfig).find((key) => modelConfig.id ===
modelId)` ignores `key`, returning the first property name of the config
object (the string `id`, or the empty string when no config is found),
neither of which is a key of the rate table.  With the GPT-4o model
selected, one million input tokens and zero output tokens, the code
returns 0 while the spec formula — and the correctly-wired
`calculateCost` — give 2.5 dollars. -/
theorem estimateCost_eq_zero (svc : AIService) (i o : ℚ) :
    estimateCost svc i o = 0 := by
  simp only [estimateCost]
  cases hm : getModelConfigById (getCurrentModel svc) with
  | none => rfl
  | some cfg =>
    show calculateCost
        ((modelConfigObjectKeys.find?
          (fun _ => cfg.id == getCurrentModel svc)).getD "") i o = 0
    cases hb : (cfg.id == getCurrentModel svc) with
    | true =>
      have hfind : modelConfigObjectKeys.find? (fun _ => true) = some "id" := by
        decide
      rw [hfind]
      exact calculateCost_id_key i o
    | false =>
      have hfind : modelConfigObjectKeys.find? (fun _ => false) = none := by
        decide
      rw [hfind]
      exact calculateCost_empty_key i o

theorem claim_C5 :
    (∀ (svc : AIService) (i o : ℚ), estimateCost svc i o = 0) ∧
    estimateCost gpt4oSvc 1000000 0 = 0 ∧
    estimateCostSpec gpt4oSvc 1000000 0 = 5 / 2 ∧
    calculateCost "gpt-4o" 1000000 0 = 5 / 2 := by
  have h3 : estimateCostSpec gpt4oSvc 1000000 0 =
      (1000000 : ℚ) / 1000000 * 2.5 + (0 : ℚ) / 1000000 * 10.0 := rfl
  have h4 : calculateCost "gpt-4o" 1000000 0 =
      (1000000 : ℚ) / 1000000 * 2.5 + (0 : ℚ) / 1000000 * 10.0 := rfl
  refine ⟨estimateCost_eq_zero, estimateCost_eq_zero gpt4oSvc 1000000 0, ?_, ?_⟩
  · rw [h3]
    norm_num
  · rw [h4]
    norm_num

/-! ## C6 and C10: the event emitter -/

theorem runHandlers_map_fst (behav : Handler → Payload → Except String Unit)
    (payload : Payload) :
    ∀ hs : List Handler, (runHandlers behav payload hs).map Prod.fst = hs := by
  intro hs
  induction hs with
  | nil => rfl
  | cons h t ih => simp [runHandlers, ih]

theorem lookupListeners_update_self (h : Handler) :
    ∀ (l : List (String × List Handler)) (event : String),
      lookupListeners (updateListeners l event h) event =
        setAdd (lookupListeners l event) h := by
  intro l
  induction l with
  | nil =>
    intro event
    simp [updateListeners, lookupListeners, setAdd]
  | cons kv rest ih =>
    intro event
    by_cases hk : kv.1 = event
    · simp [updateListeners, lookupListeners, hk]
    · simp [updateListeners, lookupListeners, hk, ih]

theorem lookupListeners_update_other {event other : String}
    (hne : other ≠ event) (h : Handler) :
    ∀ l, lookupListeners (updateListeners l event h) other =
      lookupListeners l other := by
  intro l
  induction l with
  | nil => simp [updateListeners, lookupListeners, Ne.symm hne]
  | cons kv rest ih =>
    by_cases hk : kv.1 = event
    · simp [updateListeners, lookupListeners, hk, Ne.symm hne]
    · simp [updateListeners, lookupListeners, hk, ih]

theorem lookupListeners_remove_self (h : Handler) :
    ∀ (l : List (String × List Handler)) (event : String),
      lookupListeners (removeListener l event h) event =
        (lookupListeners l event).filter (fun x => x != h) := by
  intro l
  induction l with
  | nil => intro event; simp [removeListener, lookupListeners]
  | cons kv rest ih =>
    intro event
    by_cases hk : kv.1 = event
    · simp [removeListener, lookupListeners, hk]
    · simp [removeListener, lookupListeners, hk, ih]

theorem lookupListeners_remove_other {event other : String}
    (hne : other ≠ event) (h : Handler) :
    ∀ l, lookupListeners (removeListener l event h) other =
      lookupListeners l other := by
  intro l
  induction l with
  | nil => simp [removeListener, lookupListeners]
  | cons kv rest ih =>
    by_cases hk : kv.1 = event
    · simp [removeListener, lookupListeners, hk, Ne.symm hne]
    · simp [removeListener, lookupListeners, hk, ih]

theorem setAdd_setAdd (hs : List Handler) (h : Handler) :
    setAdd (setAdd hs h) h = setAdd hs h := by
  unfold setAdd
  by_cases hm : h ∈ hs
  · simp [hm]
  · simp [hm]

theorem updateListeners_idem (event : String) (h : Handler) :
    ∀ l, updateListeners (updateListeners l event h) event h =
      updateListeners l event h := by
  intro l
  induction l with
  | nil => simp [updateListeners, setAdd]
  | cons kv rest ih =>
    by_cases hk : kv.1 = event
    · simp [updateListeners, hk, setAdd_setAdd]
    · simp [updateListeners, hk, ih]

/-- C6: `emit` invokes every currently subscribed handler for the event
exactly once, in subscription order (the listener set stores handlers in
the order they subscribed, appending new ones at the end): the invocation
list equals the listener list for every handler behaviour — in particular
a handler that throws does not prevent later handlers from being invoked,
and since `emit` is a total function of the behaviours, no handler
exception propagates to the publisher. -/
theorem claim_C6 (em : EventEmitter) (event : String)
    (behav : Handler → Payload → Except String Unit) (payload : Payload)
    (hwf : (getListeners em event).Nodup) :
    ((emit em event behav payload).map Prod.fst = getListeners em event) ∧
    (∀ h ∈ getListeners em event,
      ((emit em event behav payload).map Prod.fst).count h = 1) ∧
    (∀ g, g ∉ getListeners em event →
      getListeners (em.on event g) event = getListeners em event ++ [g]) := by
  refine ⟨runHandlers_map_fst behav payload _, ?_, ?_⟩
  · intro h hm
    show ((runHandlers behav payload
      (getListeners em event)).map Prod.fst).count h = 1
    rw [runHandlers_map_fst]
    exact List.count_eq_one_of_mem hwf hm
  · intro g hg
    show lookupListeners (updateListeners em.listeners event g) event = _
    rw [lookupListeners_update_self]
    show setAdd (getListeners em event) g = _
    unfold setAdd
    rw [if_neg hg]

/-- Witness for C6: an emitter with handlers 1 and 2 subscribed in that
order, where handler 1 throws: both handlers are invoked, in order, the
thrown message is caught, and handler 2 still runs. -/
theorem claim_C6_witness :
    (emit c6Emitter "job:created" c6Behav 0).map Prod.fst =
      getListeners c6Emitter "job:created" ∧
    getListeners c6Emitter "job:created" = [1, 2] ∧
    emit c6Emitter "job:created" c6Behav 0 = [(1, some "boom"), (2, none)] := by
  refine ⟨(claim_C6 c6Emitter "job:created" c6Behav 0 (by decide)).1,
    by decide, by decide⟩

/-- C10: subscribing the same handler to the same event twice is
idempotent (the listener `Set` ignores the duplicate), so a publish after
a double subscribe still invokes the handler exactly once; and the
unsubscribe operation removes exactly that handler for that event, leaving
every other event untouched. -/
theorem claim_C10 (em : EventEmitter) (event other : String) (h : Handler)
    (behav : Handler → Payload → Except String Unit) (payload : Payload)
    (hwf : (getListeners em event).Nodup) :
    (EventEmitter.on (EventEmitter.on em event h) event h =
      EventEmitter.on em event h) ∧
    (((emit (EventEmitter.on (EventEmitter.on em event h) event h) event
        behav payload).map Prod.fst).count h = 1) ∧
    (getListeners (EventEmitter.off em event h) event =
      (getListeners em event).filter (fun x => x != h)) ∧
    (other ≠ event →
      getListeners (EventEmitter.off em event h) other =
        getListeners em other) := by
  have hidem : EventEmitter.on (EventEmitter.on em event h) event h =
      EventEmitter.on em event h := by
    show (⟨updateListeners (updateListeners em.listeners event h) event h⟩ :
      EventEmitter) = _
    rw [updateListeners_idem]
    rfl
  have hself : getListeners (EventEmitter.on em event h) event =
      setAdd (getListeners em event) h := by
    show lookupListeners (updateListeners em.listeners event h) event = _
    rw [lookupListeners_update_self]
    rfl
  refine ⟨hidem, ?_, ?_, ?_⟩
  · rw [hidem]
    show ((runHandlers behav payload
      (getListeners (EventEmitter.on em event h) event)).map Prod.fst).count h = 1
    rw [runHandlers_map_fst, hself]
    unfold setAdd
    by_cases hm : h ∈ getListeners em event
    · rw [if_pos hm]
      exact List.count_eq_one_of_mem hwf hm
    · rw [if_neg hm, List.count_append, List.count_eq_zero_of_not_mem hm]
      simp
  · show lookupListeners (removeListener em.listeners event h) event = _
    rw [lookupListeners_remove_self]
    rfl
  · intro hne
    show lookupListeners (removeListener em.listeners event h) other = _
    rw [lookupListeners_remove_other hne]
    rfl

/-- Witness for C10 at the concrete two-handler emitter: re-subscribing
handler 2 changes nothing, unsubscribing handler 1 leaves exactly handler
2 for the event, and an unrelated event is untouched. -/
theorem claim_C10_witness :
    (EventEmitter.on (EventEmitter.on c6Emitter "job:created" 2)
        "job:created" 2 =
      EventEmitter.on c6Emitter "job:created" 2) ∧
    getListeners (EventEmitter.off c6Emitter "job:created" 1) "job:created" =
      [2] ∧
    getListeners (EventEmitter.off c6Emitter "job:created" 1) "queue:empty" =
      getListeners c6Emitter "queue:empty" := by
  have hw := claim_C10 c6Emitter "job:created" "queue:empty" 1 c6Behav 0
    (by decide)
  refine ⟨?_, ?_, hw.2.2.2 (by decide)⟩
  · exact (claim_C10 c6Emitter "job:created" "queue:empty" 2 c6Behav 0
      (by decide)).1
  · rw [hw.2.2.1]
    decide

end NTF
